import Mathlib

/-
Shallow embedding of the QChat server (src/QChat/server.py) message-dispatch
engine.  Pure collaborators that live in modules outside src/ (UserDB,
QChatMailbox, cryptobox signer/cipher, the message envelope and the protocol
registry) are modelled from the spec where noted; everything else follows the
source line by line.  Strings and byte strings are identified (the wire format
transports bytes through the reversible single-byte ISO-8859-1 encoding, so
encode/decode between them is a bijection modelled as the identity).
-/

set_option autoImplicit false

namespace QChat

/-- Decidable equality for `Except` results, so concrete runs of the embedded
operations can be checked by evaluation. -/
instance instDecEqExcept {ε α : Type} [DecidableEq ε] [DecidableEq α] :
    DecidableEq (Except ε α) := fun x y =>
  match x, y with
  | .ok a, .ok b =>
      if h : a = b then .isTrue (by rw [h])
      else .isFalse (by intro hc; cases hc; exact h rfl)
  | .error a, .error b =>
      if h : a = b then .isTrue (by rw [h])
      else .isFalse (by intro hc; cases hc; exact h rfl)
  | .ok _, .error _ => .isFalse (by intro hc; cases hc)
  | .error _, .ok _ => .isFalse (by intro hc; cases hc)

/-- Error taxonomy of the server.  Python raises plain `Exception`s; each
constructor records which failure site produced it.  `UnboundLocal` models a
Python `NameError`/`UnboundLocalError` on an unassigned local variable,
`TypeErr` models `TypeError`-class failures (bad kwargs, wrongly-typed field),
`KeyError` a missing dictionary key, and `Blocked` marks a read that would
block forever on an empty mailbox queue. -/
inductive QErr where
  | SignatureInvalid
  | DuplicateUser
  | UnknownUser
  | DirectoryTimeout
  | MailboxConsistency
  | HandshakeFailed
  | MalformedMessage
  | DecryptFailed
  | NetworkError
  | Blocked
  | TypeErr
  | KeyError (key : String)
  | UnboundLocal (var : String)
deriving DecidableEq

/-- Host/port connection descriptor. -/
structure ConnInfo where
  host : String
  port : Nat
deriving DecidableEq

/-- A value stored in a message's `data` dictionary: a string (also used for
ISO-8859-1-decoded bytes), a number, or a nested connection dictionary. -/
inductive Val where
  | vs (s : String)
  | vn (n : Nat)
  | vc (c : ConnInfo)
deriving DecidableEq

/-- A Python dict with string keys, as an insertion-ordered association list
(Python 3.7+ dicts preserve insertion order). -/
abbrev Dict := List (String × Val)

/-- Dictionary lookup `d[k]` (first entry with the key). -/
def dictGet : Dict → String → Option Val
  | [], _ => none
  | (k, v) :: d, key => if k = key then some v else dictGet d key

/-- Dictionary assignment `d[k] = v`: overwrite in place if the key is
present, append at the end otherwise (Python dict semantics). -/
def dictSet : Dict → String → Val → Dict
  | [], key, v => [(key, v)]
  | (k, w) :: d, key, v =>
      if k = key then (key, v) :: d else (k, w) :: dictSet d key v

/-- Dictionary `d.pop(k)`: remove the entry and return its value together
with the remaining dictionary; `none` models the `KeyError` raise. -/
def dictPop : Dict → String → Option (Val × Dict)
  | [], _ => none
  | (k, v) :: d, key =>
      if k = key then some (v, d)
      else
        match dictPop d key with
        | none => none
        | some (w, d') => some (w, (k, v) :: d')

/-- Message type tags: the six named QChat message classes plus the generic
control tags routed to the catch-all branch of `process_message`. -/
inductive Header where
  | qcht
  | rgst
  | getu
  | putu
  | ptcl
  | rqqb
  | other (tag : String)
deriving DecidableEq

/-- Wire message envelope: type tag, sender identifier, ordered data fields. -/
structure Message where
  header : Header
  sender : String
  data : Dict
deriving DecidableEq

/-- Wire tag of a header, used by the deterministic encoding. -/
def headerTag : Header → String
  | .qcht => "QCHT"
  | .rgst => "RGST"
  | .getu => "GETU"
  | .putu => "PUTU"
  | .ptcl => "PTCL"
  | .rqqb => "RQQB"
  | .other t => "OTHR" ++ t

/-- Modelled from the spec: deterministic serialization of a data value
(QChat.messages is not under src/; the spec only requires `encode` to be a
deterministic self-describing serialization of the fields). -/
def encodeVal : Val → String
  | .vs s => "s:" ++ s
  | .vn n => "n:" ++ toString n
  | .vc c => "c:" ++ c.host ++ ":" ++ toString c.port

/-- Modelled from the spec: deterministic serialization of the ordered data
dictionary. -/
def encodeDict (d : Dict) : String :=
  (d.map (fun e => "|" ++ e.1 ++ "=" ++ encodeVal e.2)).foldl (· ++ ·) ""

/-- Modelled from the spec: `encode_message`, the deterministic serialization
of the whole envelope (type, sender, data, in order). -/
def Message.encode_message (m : Message) : String :=
  headerTag m.header ++ "&" ++ m.sender ++ "&" ++ encodeDict m.data

/-- Modelled from the spec: asymmetric signing over a byte-encoding
(QChat.cryptobox is not under src/).  A key pair is identified with a single
key value, so the signature a signer with key `key` produces is exactly what
the verifier holding the same `key` recomputes. -/
def signBytes (key : String) (payload : String) : String :=
  "SIG[" ++ key ++ ";" ++ payload ++ "]"

/-- Modelled from the spec: signature verification recomputes the signature
over the same bytes with the (matching) public key and compares. -/
def verifyBytes (pub : String) (payload : String) (sig : String) : Bool :=
  sig = signBytes pub payload

/-- Directory record for one user: public key, connection descriptor and the
per-peer session key, each optional (`addUser` merge semantics). -/
structure UserRecord where
  pub : Option String
  connection : Option ConnInfo
  message_key : Option String
deriving DecidableEq

/-- Modelled from the spec: the Directory, mapping identifier to record
(QChat.db.UserDB is not under src/). -/
abbrev UserDB := List (String × UserRecord)

/-- First record stored under an identifier, if any. -/
def lookupUser : UserDB → String → Option UserRecord
  | [], _ => none
  | (u, r) :: db, v => if u = v then some r else lookupUser db v

/-- Modelled from the spec: `hasUser`. -/
def hasUser (db : UserDB) (u : String) : Bool :=
  (lookupUser db u).isSome

/-- Merge semantics of `addUser` on one field: an explicitly passed value
overwrites, an absent argument leaves the stored field untouched. -/
def overrideField {α : Type} (newv old : Option α) : Option α :=
  match newv with
  | some v => some v
  | none => old

/-- Modelled from the spec: `addUser` inserts-or-merges fields for the
identifier. -/
def addUser : UserDB → String → Option String → Option ConnInfo → Option String → UserDB
  | [], u, p, c, mk => [(u, ⟨p, c, mk⟩)]
  | (v, r) :: db, u, p, c, mk =>
      if v = u then
        (v, ⟨overrideField p r.pub, overrideField c r.connection,
             overrideField mk r.message_key⟩) :: db
      else (v, r) :: addUser db u p c mk

/-- Modelled from the spec: `getPublicKey` fails with `UnknownUser` on an
absent identifier. -/
def getPublicKey (db : UserDB) (u : String) : Except QErr String :=
  match lookupUser db u with
  | none => .error .UnknownUser
  | some r =>
      match r.pub with
      | some p => .ok p
      | none => .error .TypeErr

/-- Modelled from the spec: `getConnectionInfo` fails with `UnknownUser` on an
absent identifier. -/
def getConnectionInfo (db : UserDB) (u : String) : Except QErr ConnInfo :=
  match lookupUser db u with
  | none => .error .UnknownUser
  | some r =>
      match r.connection with
      | some c => .ok c
      | none => .error .TypeErr

/-- Modelled from the spec: `getMessageKey` fails with `UnknownUser` on an
absent identifier and returns the (possibly unset) session key otherwise. -/
def getMessageKey (db : UserDB) (u : String) : Except QErr (Option String) :=
  match lookupUser db u with
  | none => .error .UnknownUser
  | some r => .ok r.message_key

/-- Modelled from the spec: `changeUserInfo` with a session key requires the
record to already exist. -/
def changeUserInfo (db : UserDB) (u : String) (mk : String) : Except QErr UserDB :=
  if hasUser db u then .ok (addUser db u none none (some mk)) else .error .UnknownUser

/-- Modelled from the spec: the Mailbox, a per-peer insertion-ordered queue of
received chat messages (QChat.mailbox is not under src/). -/
abbrev Mailbox := List (String × List Message)

/-- The queue currently stored for a peer (empty if the peer has none). -/
def queueOf : Mailbox → String → List Message
  | [], _ => []
  | (u, q) :: mb, v => if u = v then q else queueOf mb v

/-- Modelled from the spec: `storeMessage` appends to the queue keyed by the
message's sender, creating the queue if absent. -/
def storeMessage : Mailbox → Message → Mailbox
  | [], m => [(m.sender, [m])]
  | (u, q) :: mb, m =>
      if u = m.sender then (u, q ++ [m]) :: mb else (u, q) :: storeMessage mb m

/-- Modelled from the spec: `getMessage` pops the FIFO head of the peer's
queue; `none` models the blocking wait on an empty queue. -/
def getMessage : Mailbox → String → Option (Message × Mailbox)
  | [], _ => none
  | (u, q) :: mb, v =>
      if u = v then
        match q with
        | [] => none
        | m :: q' => some (m, (u, q') :: mb)
      else
        match getMessage mb v with
        | none => none
        | some (m, mb') => some (m, (u, q) :: mb')

/-- Modelled from the spec: authenticated symmetric decryption
(QChat.cryptobox.QChatCipher is not under src/).  The tag authenticates key,
nonce and ciphertext; a mismatch fails closed. -/
def cipherDecrypt (key : String) (nct : String × String × String) : Except QErr String :=
  if nct.2.2 = "TAG[" ++ key ++ ";" ++ nct.1 ++ ";" ++ nct.2.1 ++ "]" then
    .ok (nct.2.1.drop (key.length + 1))
  else .error .DecryptFailed

/-- Decryption of one queued chat message exactly as `get_message_history`
performs it: read the `nonce`, `ciphertext` and `tag` fields, then decrypt
with the given session key. -/
def decryptChatMessage (key : String) (m : Message) : Except QErr String :=
  match dictGet m.data ("nonce"), dictGet m.data ("ciphertext"), dictGet m.data ("tag") with
  | some (.vs n), some (.vs c), some (.vs t) => cipherDecrypt key (n, c, t)
  | _, _, _ => .error (.KeyError ("nonce"))

/-- Sequential decryption of a list of queued chat messages, failing on the
first message that does not decrypt. -/
def decryptAll (key : String) : List Message → Except QErr (List String)
  | [] => .ok []
  | m :: ms =>
      match decryptChatMessage key m with
      | .error e => .error e
      | .ok p =>
          match decryptAll key ms with
          | .error e => .error e
          | .ok ps => .ok (p :: ps)

/-- Externally visible actions the server performs on its collaborators: a
network send and the two quantum-carrier operations used by QUBIT_REQUEST. -/
inductive Effect where
  | sendMsg (host : String) (port : Nat) (payload : String)
  | createEPR (user : String)
  | sendQubit (user : String)
deriving DecidableEq

/-- The server's mutable state: identity, signing key, own and root
configuration, Directory, Mailbox and the two per-peer queue maps. -/
structure ServerState where
  name : String
  signerKey : String
  config : ConnInfo
  rootConfig : Option ConnInfo
  userDB : UserDB
  mailbox : Mailbox
  control_message_queue : List (String × List Message)
  outbound_queue : List (String × List Message)
deriving DecidableEq

/-- Oracle for the two suspension points of message processing: the outcome of
a handshake protocol's blocking `execute()`, and whether/when/what a
concurrent dispatch task adds to the Directory while `requestUserInfo`
polls (the instant at which the entry appears, and the record). -/
structure Env where
  ptclResult : Except QErr String
  arrival : Option (Nat × UserRecord)

/-- Directory membership of the polled-for user at poll instant `t`, as
induced by the arrival oracle. -/
def arrivalFn (env : Env) : Nat → Bool :=
  fun t =>
    match env.arrival with
    | some (t0, _) => decide (t0 ≤ t)
    | none => false

/-- Append onto a per-peer control queue (`defaultdict(list)` semantics:
the queue is created on first reference). -/
def appendCtrl : List (String × List Message) → String → Message → List (String × List Message)
  | [], u, m => [(u, [m])]
  | (v, q) :: l, u, m =>
      if v = u then (v, q ++ [m]) :: l else (v, q) :: appendCtrl l u m

/-- `_sign_message`: sign the encoding of the message as it currently stands
and store the signature under the `sig` data key (appended last when the key
is absent). -/
def _sign_message (key : String) (m : Message) : Message :=
  ⟨m.header, m.sender, dictSet m.data ("sig") (.vs (signBytes key m.encode_message))⟩

/-- `_strip_signature`: `message.data.pop("sig")`; a missing key raises. -/
def _strip_signature (m : Message) : Except QErr Message :=
  match dictPop m.data ("sig") with
  | none => .error (.KeyError ("sig"))
  | some (_, d) => .ok ⟨m.header, m.sender, d⟩

/-- `_verify_and_strip_message`: read the carried signature (missing key
raises, non-string value raises), strip it, re-encode the stripped message,
look up the sender's known public key and verify; failure raises and the
stripped message is returned only on success. -/
def _verify_and_strip_message (db : UserDB) (m : Message) : Except QErr Message :=
  match dictGet m.data ("sig") with
  | none => .error (.KeyError ("sig"))
  | some (.vn _) => .error .TypeErr
  | some (.vc _) => .error .TypeErr
  | some (.vs sig) =>
      match dictPop m.data ("sig") with
      | none => .error (.KeyError ("sig"))
      | some (_, d) =>
          match getPublicKey db m.sender with
          | .error e => .error e
          | .ok pub =>
              if verifyBytes pub (Message.encode_message ⟨m.header, m.sender, d⟩) sig then
                .ok ⟨m.header, m.sender, d⟩
              else .error .SignatureInvalid

/-- Keyword-argument parse for `UserDB.addUser`'s optional fields: each entry
must be one of `pub`, `connection` or `message_key` with a value of the
field's type; anything else is an unexpected keyword argument. -/
def parseAddUserKwargs : Dict → Except QErr (Option String × Option ConnInfo × Option String)
  | [] => .ok (none, none, none)
  | (k, v) :: d =>
      match parseAddUserKwargs d with
      | .error e => .error e
      | .ok (p, c, mk) =>
          if k = "pub" then
            match v with
            | .vs s => .ok (some s, c, mk)
            | _ => .error .TypeErr
          else if k = "connection" then
            match v with
            | .vc ci => .ok (p, some ci, mk)
            | _ => .error .TypeErr
          else if k = "message_key" then
            match v with
            | .vs s => .ok (p, c, some s)
            | _ => .error .TypeErr
          else .error .TypeErr

/-- `addUserInfo(**data)`: bind the `user` entry to the first parameter and
feed the remaining entries to `UserDB.addUser` as keyword arguments. -/
def addUserInfo (db : UserDB) (d : Dict) : Except QErr UserDB :=
  match dictPop d ("user") with
  | some (.vs u, rest) =>
      match parseAddUserKwargs rest with
      | .error e => .error e
      | .ok (p, c, mk) => .ok (addUser db u p c mk)
  | some (_, _) => .error .TypeErr
  | none => .error .TypeErr

/-- `registerUser(user, connection, pub)`: reject an already-registered
identifier, otherwise insert the fresh record (the public key string is the
ISO-8859-1 image of the stored key bytes, modelled as the identity). -/
def registerUser (db : UserDB) (user : String) (connection : ConnInfo) (pub : String) :
    Except QErr UserDB :=
  if hasUser db user then .error .DuplicateUser
  else .ok (addUser db user (some pub) (some connection) none)

/-- Keyword-argument binding for `registerUser(**data)`: the data must carry
exactly the `user`, `connection` and `pub` fields. -/
def parseRegisterData (d : Dict) : Except QErr (String × ConnInfo × String) :=
  match dictGet d ("user"), dictGet d ("connection"), dictGet d ("pub") with
  | some (.vs u), some (.vc c), some (.vs p) =>
      if d.length = 3 then .ok (u, c, p) else .error .TypeErr
  | _, _, _ => .error .TypeErr

/-- Keyword-argument binding for `sendUserInfo(**data)`: the stripped
GET_USER_INFO data must carry exactly the `user` and `connection` fields. -/
def parseGetUData (d : Dict) : Except QErr (String × ConnInfo) :=
  match dictGet d ("user"), dictGet d ("connection") with
  | some (.vs u), some (.vc c) =>
      if d.length = 2 then .ok (u, c) else .error .TypeErr
  | _, _ => .error .TypeErr

/-- `getPublicInfo`: the stored public record of a user (public key and
connection descriptor, modelled from the spec for `getPublicUserInfo`), with
the key re-encoded as text and the `user` field added last. -/
def getPublicInfo (st : ServerState) (user : String) : Except QErr Dict :=
  match lookupUser st.userDB user with
  | none => .error .UnknownUser
  | some r =>
      match r.pub, r.connection with
      | some p, some c => .ok [(("pub"), .vs p), (("connection"), .vc c), (("user"), .vs user)]
      | _, _ => .error .TypeErr

/-- `sendUserInfo`: build a PUT_USER_INFO reply from the requested user's
public info, sign it, and send it to the requester's connection info. -/
def sendUserInfo (st : ServerState) (user : String) (connection : ConnInfo) :
    Except QErr (List Effect) :=
  match getPublicInfo st user with
  | .error e => .error e
  | .ok info =>
      .ok [.sendMsg connection.host connection.port
            (_sign_message st.signerKey ⟨.putu, st.name, info⟩).encode_message]

/-- The polling loop of `requestUserInfo`: at each poll instant check
Directory membership first, then give up once more than 2 time units have
elapsed (one poll iteration per time unit). -/
def waitForUser (h : Nat → Bool) (t : Nat) : Except QErr Unit :=
  if h t then .ok ()
  else if t > 2 then .error .DirectoryTimeout
  else waitForUser h (t + 1)
termination_by 3 - t

/-- `requestUserInfo`: send a signed GET_USER_INFO carrying the requested
identifier and our own connection info to the configured root, then poll the
Directory under the bounded wait.  A missing root configuration raises when
subscripted. -/
def requestUserInfo (st : ServerState) (user : String) (h : Nat → Bool) :
    List Effect × Except QErr Unit :=
  match st.rootConfig with
  | none => ([], .error .TypeErr)
  | some rc =>
      ([.sendMsg rc.host rc.port
          (_sign_message st.signerKey
            ⟨.getu, st.name, [(("user"), .vs user), (("connection"), .vc st.config)]⟩).encode_message],
       waitForUser h 0)

/-- Modelled from the spec: the protocol registry.  The reference
key-agreement protocol is the purified BB84 family; only `KeyAgreement`
products cause the Dispatcher to store a key. -/
def isKeyProtocol (name : String) : Bool :=
  name = "BB84_Purified"

/-- `_follow_protocol`: look up the peer's connection info, build the named
protocol in follower role from the `name` and `n` data fields, and, when the
product is a key protocol, run it and store the resulting session key. -/
def _follow_protocol (env : Env) (st : ServerState) (m : Message) : Except QErr ServerState :=
  match getConnectionInfo st.userDB m.sender with
  | .error e => .error e
  | .ok _ =>
      match dictGet m.data ("name") with
      | none => .error (.KeyError ("name"))
      | some (.vn _) => .error .TypeErr
      | some (.vc _) => .error .TypeErr
      | some (.vs pname) =>
          match dictGet m.data ("n") with
          | none => .error (.KeyError ("n"))
          | some _ =>
              if isKeyProtocol pname then
                match env.ptclResult with
                | .error e => .error e
                | .ok key =>
                    match changeUserInfo st.userDB m.sender key with
                    | .error e => .error e
                    | .ok db' => .ok { st with userDB := db' }
              else .ok st

/-- `_establish_key`: the `hasUser` guard only wraps the protocol
construction; the call `p.execute()` is unconditional, so for an unknown user
the local `p` is referenced unassigned. -/
def _establish_key (env : Env) (st : ServerState) (user : String) (_keySize : Nat) :
    List Effect × Except QErr ServerState :=
  if hasUser st.userDB user then
    match getConnectionInfo st.userDB user with
    | .error e => ([], .error e)
    | .ok _ =>
        match env.ptclResult with
        | .error e => ([], .error e)
        | .ok key =>
            match changeUserInfo st.userDB user key with
            | .error e => ([], .error e)
            | .ok db' => ([], .ok { st with userDB := db' })
  else ([], .error (.UnboundLocal ("p")))

/-- `process_message`: the typed router, one branch per message header. -/
def process_message (env : Env) (st : ServerState) (m : Message) :
    List Effect × Except QErr ServerState :=
  match m.header with
  | .qcht =>
      match _verify_and_strip_message st.userDB m with
      | .error e => ([], .error e)
      | .ok m' => ([], .ok { st with mailbox := storeMessage st.mailbox m' })
  | .rgst =>
      match parseRegisterData m.data with
      | .error e => ([], .error e)
      | .ok (u, c, p) =>
          match registerUser st.userDB u c p with
          | .error e => ([], .error e)
          | .ok db' => ([], .ok { st with userDB := db' })
  | .getu =>
      match _strip_signature m with
      | .error e => ([], .error e)
      | .ok m' =>
          match parseGetUData m'.data with
          | .error e => ([], .error e)
          | .ok (u, c) =>
              match sendUserInfo st u c with
              | .error e => ([], .error e)
              | .ok effs => (effs, .ok st)
  | .putu =>
      match _strip_signature m with
      | .error e => ([], .error e)
      | .ok m' =>
          match addUserInfo st.userDB m'.data with
          | .error e => ([], .error e)
          | .ok db' => ([], .ok { st with userDB := db' })
  | .ptcl =>
      if hasUser st.userDB m.sender then
        match _verify_and_strip_message st.userDB m with
        | .error e => ([], .error e)
        | .ok m' => ([], _follow_protocol env st m')
      else
        match requestUserInfo st m.sender (arrivalFn env) with
        | (effs, .error e) => (effs, .error e)
        | (effs, .ok _) =>
            match env.arrival with
            | some (_, r) =>
                (effs, _follow_protocol env
                  { st with userDB := addUser st.userDB m.sender r.pub r.connection r.message_key } m)
            | none => (effs, .error .DirectoryTimeout)
  | .rqqb =>
      match dictGet m.data ("user") with
      | some (.vs u) => ([.createEPR m.sender, .sendQubit u], .ok st)
      | some _ => ([.createEPR m.sender], .error .TypeErr)
      | none => ([], .error (.KeyError ("user")))
  | .other _ =>
      match _verify_and_strip_message st.userDB m with
      | .error e => ([], .error e)
      | .ok m' =>
          ([], .ok { st with control_message_queue := appendCtrl st.control_message_queue m'.sender m' })

/-- `sendRegistration` together with `_get_registration_data`: build the
unsigned REGISTER payload (own name, own public key re-encoded as text, own
connection info) and send it; a network failure raises. -/
def sendRegistration (st : ServerState) (sendFails : Bool) (host : String) (port : Nat) :
    Except QErr (List Effect) :=
  match getPublicKey st.userDB st.name with
  | .error e => .error e
  | .ok pk =>
      if sendFails then .error .NetworkError
      else
        .ok [.sendMsg host port
              (Message.encode_message
                ⟨.rgst, st.name, [(("user"), .vs st.name), (("pub"), .vs pk), (("connection"), .vc st.config)]⟩)]

/-- The server method `_register_with_root_server` (renamed here to satisfy the
Lean naming rules): inside a catch-all try block, compare own
host and port to the root's; the root itself sends nothing, every other node
sends its registration, and any failure (missing root config, unknown own
record, network error) is caught and logged. -/
def registerWithRootServer (st : ServerState) (sendFails : Bool) :
    List Effect × Except QErr Unit :=
  match st.rootConfig with
  | none => ([], .ok ())
  | some rc =>
      if st.config.host = rc.host ∧ st.config.port = rc.port then ([], .ok ())
      else
        match sendRegistration st sendFails rc.host rc.port with
        | .ok effs => (effs, .ok ())
        | .error _ => ([], .ok ())

/-- `get_message_history(user, count)`: dequeue `count` messages from the
user's mailbox queue in FIFO order; a message from a different sender raises
the consistency error before any decryption of it, otherwise the message is
decrypted with the user's stored session key and collected in order. -/
def get_message_history (db : UserDB) (mb : Mailbox) (user : String) :
    Nat → Except QErr (List String × Mailbox)
  | 0 => .ok ([], mb)
  | n + 1 =>
      match getMessage mb user with
      | none => .error .Blocked
      | some (qm, mb') =>
          if qm.sender = user then
            match getMessageKey db user with
            | .error e => .error e
            | .ok none => .error .DecryptFailed
            | .ok (some key) =>
                match decryptChatMessage key qm with
                | .error e => .error e
                | .ok pt =>
                    match get_message_history db mb' user n with
                    | .error e => .error e
                    | .ok (pts, mb'') => .ok (pt :: pts, mb'')
          else .error .MailboxConsistency

/-! Concrete fixtures: a small two-node world (directory node and one known
peer) used to evaluate the embedded operations on closed inputs. -/

/-- Fixture: the local node's own directory record. -/
def bobRecW : UserRecord := ⟨some ("BPUB"), some ⟨"bobhost", 8001⟩, none⟩

/-- Fixture: a known peer with an established session key. -/
def aliceRecW : UserRecord := ⟨some ("APUB"), some ⟨"alicehost", 8000⟩, some ("SKEY")⟩

/-- Fixture: a server state for the node `Bob` that knows itself and `Alice`. -/
def stW : ServerState :=
  { name := "Bob", signerKey := "BPUB", config := ⟨"bobhost", 8001⟩,
    rootConfig := some ⟨"roothost", 8000⟩,
    userDB := [("Bob", bobRecW), ("Alice", aliceRecW)],
    mailbox := [], control_message_queue := [], outbound_queue := [] }

/-- Fixture: an environment whose handshake oracle succeeds and in which no
directory resolution ever arrives. -/
def envW : Env := ⟨.ok ("NEWKEY"), none⟩

/-- Fixture: payload fields of a chat message. -/
def chatDataW : Dict := [(("nonce"), .vs ("N")), (("ciphertext"), .vs ("C")), (("tag"), .vs ("T"))]

/-- Fixture: a chat message correctly signed with `Alice`'s key. -/
def chatW : Message := _sign_message ("APUB") ⟨.qcht, "Alice", chatDataW⟩

/-- Fixture: a chat message from `Alice` carrying an invalid signature. -/
def chatBadW : Message := ⟨.qcht, "Alice", chatDataW ++ [(("sig"), .vs ("bad"))]⟩

/-- Fixture: a chat message from `Alice` whose ciphertext fields decrypt to
`pt` under the session key `SKEY` of the modelled cipher. -/
def mkChatW (pt : String) : Message :=
  ⟨.qcht, "Alice",
   [(("nonce"), .vs ("N")), (("ciphertext"), .vs ("SKEY|" ++ pt)),
    (("tag"), .vs ("TAG[SKEY;N;SKEY|" ++ pt ++ "]"))]⟩

/-- Fixture: a mailbox holding three decryptable chat messages from `Alice`
in arrival order. -/
def mbW : Mailbox := [("Alice", [mkChatW ("m1"), mkChatW ("m2"), mkChatW ("m3")])]

/-- Fixture: a mailbox whose `Alice` queue contains a message recorded under
`Alice` but declaring the sender `Carol`. -/
def mbBadW : Mailbox := [("Alice", [mkChatW ("m1"), ⟨.qcht, "Carol", []⟩, mkChatW ("m3")])]

end QChat

namespace QChat

/-! Helper lemmas about the dictionary, directory, mailbox and queue
operations. -/

theorem dictPop_eq_none_of_get_none (d : Dict) (k : String) (h : dictGet d k = none) :
    dictPop d k = none := by
  induction d with
  | nil => rfl
  | cons e d ih =>
      obtain ⟨k', v⟩ := e
      by_cases hk : k' = k
      · simp [dictGet, hk] at h
      · simp [dictGet, hk] at h
        simp [dictPop, hk, ih h]

theorem dictSet_append_of_get_none (d : Dict) (k : String) (v : Val)
    (h : dictGet d k = none) : dictSet d k v = d ++ [(k, v)] := by
  induction d with
  | nil => rfl
  | cons e d ih =>
      obtain ⟨k', w⟩ := e
      by_cases hk : k' = k
      · simp [dictGet, hk] at h
      · simp [dictGet, hk] at h
        simp [dictSet, hk, ih h]

theorem dictGet_append_last (d : Dict) (k : String) (v : Val)
    (h : dictGet d k = none) : dictGet (d ++ [(k, v)]) k = some v := by
  induction d with
  | nil => simp [dictGet]
  | cons e d ih =>
      obtain ⟨k', w⟩ := e
      by_cases hk : k' = k
      · simp [dictGet, hk] at h
      · simp [dictGet, hk] at h
        simp [dictGet, hk, ih h]

theorem dictPop_append_last (d : Dict) (k : String) (v : Val)
    (h : dictGet d k = none) : dictPop (d ++ [(k, v)]) k = some (v, d) := by
  induction d with
  | nil => simp [dictPop]
  | cons e d ih =>
      obtain ⟨k', w⟩ := e
      by_cases hk : k' = k
      · simp [dictGet, hk] at h
      · simp [dictGet, hk] at h
        simp [dictPop, hk, ih h]

theorem dictPop_middle (pre post : Dict) (k : String) (v : Val)
    (h : ∀ e ∈ pre, e.1 ≠ k) :
    dictPop (pre ++ (k, v) :: post) k = some (v, pre ++ post) := by
  induction pre with
  | nil => simp [dictPop]
  | cons e pre ih =>
      obtain ⟨k', w⟩ := e
      have hk : k' ≠ k := h (k', w) (List.mem_cons_self _ _)
      have hrest : ∀ e ∈ pre, e.1 ≠ k := fun e he => h e (List.mem_cons_of_mem _ he)
      simp [dictPop, hk, ih hrest]

theorem dictGet_middle_ne (pre post : Dict) (k sk : String) (v w : Val) (h : k ≠ sk) :
    dictGet (pre ++ (sk, v) :: post) k = dictGet (pre ++ (sk, w) :: post) k := by
  induction pre with
  | nil =>
      have hks : sk ≠ k := fun hc => h hc.symm
      simp [dictGet, hks]
  | cons e pre ih =>
      obtain ⟨k', x⟩ := e
      by_cases hk : k' = k
      · simp [dictGet, hk]
      · simp [dictGet, hk, ih]

theorem dictGet_pop_none_of_nodup (d : Dict) (k : String) (v : Val) (d' : Dict)
    (hnd : (d.map Prod.fst).Nodup) (h : dictPop d k = some (v, d')) :
    dictGet d' k = none := by
  induction d generalizing d' with
  | nil => simp [dictPop] at h
  | cons e d ih =>
      obtain ⟨k', w⟩ := e
      simp only [List.map_cons, List.nodup_cons] at hnd
      by_cases hk : k' = k
      · subst hk
        simp [dictPop] at h
        obtain ⟨-, hd⟩ := h
        subst hd
        have hne : ∀ x ∈ d, x.1 ≠ k' := by
          intro x hx hc
          exact hnd.1 (hc ▸ List.mem_map_of_mem Prod.fst hx)
        clear hnd ih
        induction d with
        | nil => rfl
        | cons y d ihd =>
            have hy : y.1 ≠ k' := hne y (List.mem_cons_self _ _)
            obtain ⟨ky, vy⟩ := y
            simp only [dictGet, if_neg hy]
            exact ihd (fun x hx => hne x (List.mem_cons_of_mem _ hx))
      · simp only [dictPop, if_neg hk] at h
        match hp : dictPop d k with
        | none => rw [hp] at h; simp at h
        | some (w', d'') =>
            rw [hp] at h
            simp at h
            obtain ⟨hv, hd⟩ := h
            subst hd
            simp only [dictGet, if_neg hk]
            exact ih d'' hnd.2 (hv ▸ hp)

theorem lookupUser_addUser_new (db : UserDB) (u : String) (p : Option String)
    (c : Option ConnInfo) (mk : Option String) (h : hasUser db u = false) :
    lookupUser (addUser db u p c mk) u = some ⟨p, c, mk⟩ := by
  induction db with
  | nil => simp [addUser, lookupUser]
  | cons e db ih =>
      obtain ⟨v, r⟩ := e
      by_cases hv : v = u
      · simp [hasUser, lookupUser, hv] at h
      · simp [hasUser, lookupUser, hv] at h
        simp [addUser, lookupUser, hv, ih]
        exact ih (by simp [hasUser, h])

theorem lookupUser_addUser_other (db : UserDB) (u v : String) (p : Option String)
    (c : Option ConnInfo) (mk : Option String) (h : v ≠ u) :
    lookupUser (addUser db u p c mk) v = lookupUser db v := by
  induction db with
  | nil =>
      have huv : u ≠ v := fun hc => h hc.symm
      simp [addUser, lookupUser, huv]
  | cons e db ih =>
      obtain ⟨w, r⟩ := e
      by_cases hw : w = u
      · subst hw
        have hwv : w ≠ v := fun hc => h hc.symm
        simp [addUser, lookupUser, hwv]
      · by_cases hwv : w = v
        · subst hwv
          simp [addUser, lookupUser, hw]
        · simp [addUser, lookupUser, hw, hwv, ih]

theorem queueOf_storeMessage_self (mb : Mailbox) (m : Message) :
    queueOf (storeMessage mb m) m.sender = queueOf mb m.sender ++ [m] := by
  induction mb with
  | nil => simp [storeMessage, queueOf]
  | cons e mb ih =>
      obtain ⟨u, q⟩ := e
      by_cases hu : u = m.sender
      · simp [storeMessage, queueOf, hu]
      · simp [storeMessage, queueOf, hu, ih]

theorem getMessage_cons_spec (mb : Mailbox) (u : String) (m : Message) (q : List Message)
    (h : queueOf mb u = m :: q) :
    ∃ mb', getMessage mb u = some (m, mb') ∧ queueOf mb' u = q ∧
      ∀ v, v ≠ u → queueOf mb' v = queueOf mb v := by
  induction mb with
  | nil => simp [queueOf] at h
  | cons e mb ih =>
      obtain ⟨w, l⟩ := e
      by_cases hw : w = u
      · subst hw
        simp [queueOf] at h
        subst h
        refine ⟨(w, q) :: mb, ?_, ?_, ?_⟩
        · simp [getMessage]
        · simp [queueOf]
        · intro v hv
          have hwv : w ≠ v := fun hc => hv hc.symm
          simp [queueOf, hwv]
      · simp [queueOf, hw] at h
        obtain ⟨mb', h1, h2, h3⟩ := ih h
        refine ⟨(w, l) :: mb', ?_, ?_, ?_⟩
        · simp [getMessage, hw, h1]
        · simp [queueOf, hw, h2]
        · intro v hv
          by_cases hwv : w = v
          · simp [queueOf, hwv]
          · simp [queueOf, hwv, h3 v hv]

theorem waitForUser_expand (h : Nat → Bool) :
    waitForUser h 0 =
      if h 0 then .ok () else if h 1 then .ok () else if h 2 then .ok ()
      else if h 3 then .ok () else .error .DirectoryTimeout := by
  rw [waitForUser]
  by_cases h0 : h 0
  · simp [h0]
  · rw [waitForUser]
    by_cases h1 : h 1
    · simp [h0, h1]
    · rw [waitForUser]
      by_cases h2 : h 2
      · simp [h0, h1, h2]
      · rw [waitForUser]
        by_cases h3 : h 3
        · simp [h0, h1, h2, h3]
        · simp [h0, h1, h2, h3]

theorem forall_le_three_iff (p : Nat → Prop) :
    (∀ t, t ≤ 3 → p t) ↔ p 0 ∧ p 1 ∧ p 2 ∧ p 3 := by
  constructor
  · intro H
    exact ⟨H 0 (by norm_num), H 1 (by norm_num), H 2 (by norm_num), H 3 (by norm_num)⟩
  · rintro ⟨a, b, c, d⟩ t ht
    interval_cases t
    · exact a
    · exact b
    · exact c
    · exact d

theorem gmh_ok_aux (db : UserDB) (user k : String) :
    ∀ (count : Nat) (mb : Mailbox) (q : List Message) (ps : List String),
      queueOf mb user = q → count ≤ q.length →
      (∀ m ∈ q.take count, m.sender = user) →
      getMessageKey db user = .ok (some k) →
      decryptAll k (q.take count) = .ok ps →
      ∃ mb', get_message_history db mb user count = .ok (ps, mb') ∧
        queueOf mb' user = q.drop count ∧
        ∀ v, v ≠ user → queueOf mb' v = queueOf mb v := by
  intro count
  induction count with
  | zero =>
      intro mb q ps hq hlen hs hk hd
      simp [decryptAll] at hd
      subst hd
      exact ⟨mb, by simp [get_message_history], by simp [hq], fun v hv => rfl⟩
  | succ n ih =>
      intro mb q ps hq hlen hs hk hd
      match q, hq, hlen, hs, hd with
      | [], hq, hlen, hs, hd => simp at hlen
      | m0 :: q', hq, hlen, hs, hd =>
          obtain ⟨mb1, hget, hq1, hother⟩ := getMessage_cons_spec mb user m0 q' hq
          have hs0 : m0.sender = user := hs m0 (by simp)
          rw [List.take_succ_cons] at hd
          simp only [decryptAll] at hd
          cases hdc : decryptChatMessage k m0 with
          | error e => rw [hdc] at hd; simp at hd
          | ok p0 =>
              rw [hdc] at hd
              cases hdall : decryptAll k (q'.take n) with
              | error e => rw [hdall] at hd; simp at hd
              | ok ps' =>
                  rw [hdall] at hd
                  simp at hd
                  obtain ⟨mb2, hrec, hq2, hother2⟩ := ih mb1 q' ps' hq1
                    (by simpa using Nat.succ_le_succ_iff.mp hlen)
                    (fun m hm => hs m (by simp [hm]))
                    hk hdall
                  refine ⟨mb2, ?_, ?_, ?_⟩
                  · simp [get_message_history, hget, hs0, hk, hdc, hrec, hd]
                  · simpa using hq2
                  · intro v hv
                    rw [hother2 v hv, hother v hv]

theorem gmh_mismatch_aux (db : UserDB) (user k : String) :
    ∀ (i count : Nat) (mb : Mailbox) (q : List Message) (ps : List String) (bad : Message),
      queueOf mb user = q → i < count → q.get? i = some bad → bad.sender ≠ user →
      (∀ m ∈ q.take i, m.sender = user) →
      getMessageKey db user = .ok (some k) →
      decryptAll k (q.take i) = .ok ps →
      get_message_history db mb user count = .error .MailboxConsistency := by
  intro i
  induction i with
  | zero =>
      intro count mb q ps bad hq hic hget0 hbad hs hk hd
      match q, hq, hget0 with
      | b :: q', hq, hget0 =>
          simp at hget0
          subst hget0
          obtain ⟨mb1, hgm, -, -⟩ := getMessage_cons_spec mb user b q' hq
          match count, hic with
          | n + 1, _ =>
              simp [get_message_history, hgm, hbad]
  | succ i ih =>
      intro count mb q ps bad hq hic hgeti hbad hs hk hd
      match q, hq, hgeti, hs, hd with
      | m0 :: q', hq, hgeti, hs, hd =>
          obtain ⟨mb1, hget, hq1, -⟩ := getMessage_cons_spec mb user m0 q' hq
          have hs0 : m0.sender = user := hs m0 (by simp)
          rw [List.take_succ_cons] at hd
          simp only [decryptAll] at hd
          cases hdc : decryptChatMessage k m0 with
          | error e => rw [hdc] at hd; simp at hd
          | ok p0 =>
              rw [hdc] at hd
              cases hdall : decryptAll k (q'.take i) with
              | error e => rw [hdall] at hd; simp at hd
              | ok ps' =>
                  match count, hic with
                  | n + 1, hic =>
                      have hrec := ih n mb1 q' ps' bad hq1
                        (Nat.succ_lt_succ_iff.mp hic)
                        (by simpa using hgeti) hbad
                        (fun m hm => hs m (by simp [hm]))
                        hk hdall
                      simp [get_message_history, hget, hs0, hk, hdc, hrec]

theorem verify_and_strip_ok_inv (db : UserDB) (m m' : Message)
    (h : _verify_and_strip_message db m = .ok m') :
    ∃ sig w d pub, dictGet m.data ("sig") = some (.vs sig) ∧
      dictPop m.data ("sig") = some (w, d) ∧
      getPublicKey db m.sender = .ok pub ∧
      verifyBytes pub (Message.encode_message ⟨m.header, m.sender, d⟩) sig = true ∧
      m' = ⟨m.header, m.sender, d⟩ := by
  unfold _verify_and_strip_message at h
  match hget : dictGet m.data ("sig") with
  | none => rw [hget] at h; simp at h
  | some (.vn _) => rw [hget] at h; simp at h
  | some (.vc _) => rw [hget] at h; simp at h
  | some (.vs sig) =>
      rw [hget] at h
      match hpop : dictPop m.data ("sig") with
      | none => rw [hpop] at h; simp at h
      | some (w, d) =>
          rw [hpop] at h
          match hpk : getPublicKey db m.sender with
          | .error e => rw [hpk] at h; simp at h
          | .ok pub =>
              rw [hpk] at h
              simp at h
              by_cases hv : verifyBytes pub (Message.encode_message ⟨m.header, m.sender, d⟩) sig = true
              · rw [if_pos hv] at h
                injection h with h
                exact ⟨sig, w, d, pub, rfl, rfl, rfl, hv, h.symm⟩
              · rw [if_neg hv] at h
                simp at h

theorem follow_protocol_congr (env : Env) (st : ServerState) (hd : Header) (s : String)
    (d₁ d₂ : Dict) (hname : dictGet d₁ ("name") = dictGet d₂ ("name"))
    (hn : dictGet d₁ ("n") = dictGet d₂ ("n")) :
    _follow_protocol env st ⟨hd, s, d₁⟩ = _follow_protocol env st ⟨hd, s, d₂⟩ := by
  unfold _follow_protocol
  simp only [hname, hn]

/-! Claim theorems. -/

/-- C5: `registerUser` fails with `DuplicateUser` for an identifier already in
the Directory (the existing record is untouched, since the failing call
returns no new Directory); for a fresh identifier it inserts exactly the
record built from the given public key and connection info, leaves every
other record unchanged, and a second registration of the same identifier
fails. -/
theorem c5_registerUser_duplicate (db : UserDB) (u : String) (pub : String)
    (conn : ConnInfo) (pub₂ : String) (conn₂ : ConnInfo) :
    (hasUser db u = true → registerUser db u conn pub = .error .DuplicateUser) ∧
    (hasUser db u = false →
      ∃ db', registerUser db u conn pub = .ok db' ∧
        lookupUser db' u = some ⟨some pub, some conn, none⟩ ∧
        (∀ v, v ≠ u → lookupUser db' v = lookupUser db v) ∧
        registerUser db' u conn₂ pub₂ = .error .DuplicateUser) := by
  constructor
  · intro h
    simp [registerUser, h]
  · intro h
    refine ⟨addUser db u (some pub) (some conn) none, ?_, ?_, ?_, ?_⟩
    · simp [registerUser, h]
    · exact lookupUser_addUser_new db u _ _ _ h
    · intro v hv
      exact lookupUser_addUser_other db u v _ _ _ hv
    · have hh : hasUser (addUser db u (some pub) (some conn) none) u = true := by
        unfold hasUser
        rw [lookupUser_addUser_new db u _ _ _ h]
        rfl
      simp [registerUser, hh]

/-- C5 witness: in the fixture directory, registering the known `Alice` fails
with `DuplicateUser`, while registering the fresh `Carol` inserts her record
and a repeated registration of `Carol` then fails. -/
theorem c5_registerUser_duplicate_witness :
    registerUser stW.userDB ("Alice") ⟨"h", 1⟩ ("P") = .error .DuplicateUser ∧
    ∃ db', registerUser stW.userDB ("Carol") ⟨"h", 1⟩ ("CP") = .ok db' ∧
      lookupUser db' ("Carol") = some ⟨some ("CP"), some ⟨"h", 1⟩, none⟩ ∧
      (∀ v, v ≠ "Carol" → lookupUser db' v = lookupUser stW.userDB v) ∧
      registerUser db' ("Carol") ⟨"h", 2⟩ ("X") = .error .DuplicateUser :=
  ⟨(c5_registerUser_duplicate stW.userDB ("Alice") ("P") ⟨"h", 1⟩ ("X") ⟨"h", 2⟩).1 (by decide),
   (c5_registerUser_duplicate stW.userDB ("Carol") ("CP") ⟨"h", 1⟩ ("X") ⟨"h", 2⟩).2 (by decide)⟩

/-- C6: for a message carrying no signature field, `_sign_message` computes
the signature over the encoding of the message without the signature field
and appends it as the last data field; `_verify_and_strip_message` against a
directory that knows the signer's own public key for the sender then succeeds
and returns the original message unchanged. -/
theorem c6_sign_verify_roundtrip (key : String) (m : Message) (db : UserDB)
    (hnosig : dictGet m.data ("sig") = none)
    (hpub : getPublicKey db m.sender = .ok key) :
    (_sign_message key m).data = m.data ++ [(("sig"), .vs (signBytes key m.encode_message))] ∧
    _verify_and_strip_message db (_sign_message key m) = .ok m := by
  obtain ⟨hd, sd, d⟩ := m
  simp only [Message.data] at hnosig
  have hset := dictSet_append_of_get_none d ("sig")
    (.vs (signBytes key (Message.encode_message ⟨hd, sd, d⟩))) hnosig
  constructor
  · simp [_sign_message, hset]
  · unfold _sign_message _verify_and_strip_message
    simp only [Message.data, Message.sender, Message.header, hset]
    rw [dictGet_append_last d _ _ hnosig, dictPop_append_last d _ _ hnosig]
    simp only [Message.sender] at hpub
    rw [hpub]
    simp [verifyBytes]

/-- C6 witness: a concrete unsigned control message signed by the fixture
node `Bob` verifies and strips back to itself against the fixture
directory. -/
theorem c6_sign_verify_roundtrip_witness :
    (_sign_message ("BPUB") ⟨.other ("RT"), "Bob", [(("x"), .vs ("1")), (("n"), .vn 5)]⟩).data =
      [(("x"), .vs ("1")), (("n"), .vn 5)] ++
        [(("sig"), .vs (signBytes ("BPUB")
          (Message.encode_message ⟨.other ("RT"), "Bob", [(("x"), .vs ("1")), (("n"), .vn 5)]⟩)))] ∧
    _verify_and_strip_message stW.userDB
        (_sign_message ("BPUB") ⟨.other ("RT"), "Bob", [(("x"), .vs ("1")), (("n"), .vn 5)]⟩) =
      .ok ⟨.other ("RT"), "Bob", [(("x"), .vs ("1")), (("n"), .vn 5)]⟩ :=
  c6_sign_verify_roundtrip ("BPUB") ⟨.other ("RT"), "Bob", [(("x"), .vs ("1")), (("n"), .vn 5)]⟩
    stW.userDB (by decide) (by decide)

/-- C7: for a user absent from the Directory, `_establish_key` fails with the
unbound-local error on `p` (a Python `UnboundLocalError`, not a clean
`UnknownUser`), produces no effect, and — the environment oracle being
universally quantified while the result never consults it — neither
constructs nor executes any handshake protocol; the error result carries no
mutated state. -/
theorem c7_establish_key_unknown_user (env : Env) (st : ServerState) (user : String)
    (keySize : Nat) (h : hasUser st.userDB user = false) :
    _establish_key env st user keySize = ([], .error (.UnboundLocal ("p"))) ∧
    QErr.UnboundLocal ("p") ≠ QErr.UnknownUser := by
  constructor
  · simp [_establish_key, h]
  · intro hc
    cases hc

/-- C7 witness: establishing a key with the unknown `Carol` in the fixture
state hits the unbound local. -/
theorem c7_establish_key_unknown_user_witness :
    _establish_key envW stW ("Carol") 100 = ([], .error (.UnboundLocal ("p"))) ∧
    QErr.UnboundLocal ("p") ≠ QErr.UnknownUser :=
  c7_establish_key_unknown_user envW stW ("Carol") 100 (by decide)

/-- C8: an inbound GET_USER_INFO or PUT_USER_INFO message whose data has no
`sig` field fails processing at the unconditional signature pop with the
`KeyError`: no effect is emitted (so an unsigned GET_USER_INFO is never
answered) and the error result carries no state (so an unsigned
PUT_USER_INFO never mutates the Directory). -/
theorem c8_unsigned_getu_putu_fail (env : Env) (st : ServerState) (m : Message)
    (hnosig : dictGet m.data ("sig") = none)
    (hhd : m.header = .getu ∨ m.header = .putu) :
    process_message env st m = ([], .error (.KeyError ("sig"))) := by
  obtain ⟨hd, sd, d⟩ := m
  simp only [Message.data] at hnosig
  have hpop := dictPop_eq_none_of_get_none d ("sig") hnosig
  rcases hhd with hhd | hhd <;>
    cases hd <;> simp at hhd <;>
      simp [process_message, _strip_signature, hpop]

/-- C8 witness: a concrete unsigned GET_USER_INFO and a concrete unsigned
PUT_USER_INFO both fail with the missing-key error in the fixture state. -/
theorem c8_unsigned_getu_putu_fail_witness :
    process_message envW stW ⟨.getu, "Alice", [(("user"), .vs ("Bob"))]⟩ =
      ([], .error (.KeyError ("sig"))) ∧
    process_message envW stW ⟨.putu, "Alice", [(("user"), .vs ("Eve"))]⟩ =
      ([], .error (.KeyError ("sig"))) :=
  ⟨c8_unsigned_getu_putu_fail envW stW ⟨.getu, "Alice", [(("user"), .vs ("Bob"))]⟩
      (by decide) (Or.inl rfl),
   c8_unsigned_getu_putu_fail envW stW ⟨.putu, "Alice", [(("user"), .vs ("Eve"))]⟩
      (by decide) (Or.inr rfl)⟩

/-- C10: processing a QUBIT_REQUEST message between the sender and the peer
named in its `user` field emits exactly the carrier-creation and transfer
delegations to the transport collaborator, and returns the server state
unchanged: Directory, Mailbox and every queue are identical before and
after. -/
theorem c10_qubit_request_frame (env : Env) (st : ServerState) (m : Message) (u : String)
    (hhd : m.header = .rqqb) (huser : dictGet m.data ("user") = some (.vs u)) :
    process_message env st m = ([.createEPR m.sender, .sendQubit u], .ok st) := by
  obtain ⟨hd, sd, d⟩ := m
  simp only [Message.data] at huser
  cases hd <;> simp at hhd
  simp [process_message, huser]

/-- C10 witness: a concrete QUBIT_REQUEST from `Alice` naming `Carol` only
delegates the two carrier operations and leaves the fixture state equal to
itself. -/
theorem c10_qubit_request_frame_witness :
    process_message envW stW ⟨.rqqb, "Alice", [(("user"), .vs ("Carol"))]⟩ =
      ([.createEPR ("Alice"), .sendQubit ("Carol")], .ok stW) :=
  c10_qubit_request_frame envW stW ⟨.rqqb, "Alice", [(("user"), .vs ("Carol"))]⟩ ("Carol")
    rfl (by decide)

/-- C2: an inbound CHAT message is verified against the sender's known public
key; on any verification failure (missing or malformed signature, unknown
sender, bad signature) processing fails with that error and neither the
Mailbox nor anything else is touched; on success the stripped message — same
sender and header, signature field removed — is appended to the Mailbox queue
keyed by the sender. -/
theorem c2_chat_verify_before_store (env : Env) (st : ServerState) (m : Message)
    (hhd : m.header = .qcht) :
    (∀ e, _verify_and_strip_message st.userDB m = .error e →
       process_message env st m = ([], .error e)) ∧
    (∀ m', _verify_and_strip_message st.userDB m = .ok m' →
       process_message env st m =
         ([], .ok { st with mailbox := storeMessage st.mailbox m' }) ∧
       m'.sender = m.sender ∧ m'.header = m.header ∧
       queueOf (storeMessage st.mailbox m') m.sender = queueOf st.mailbox m.sender ++ [m'] ∧
       ((m.data.map Prod.fst).Nodup → dictGet m'.data ("sig") = none)) := by
  obtain ⟨hd, sd, d⟩ := m
  cases hd <;> simp at hhd
  constructor
  · intro e he
    simp [process_message, he]
  · intro m' hok
    obtain ⟨sig, w, d', pub, hget, hpop, hpk, hv, hm'⟩ :=
      verify_and_strip_ok_inv st.userDB ⟨.qcht, sd, d⟩ m' hok
    refine ⟨by simp [process_message, hok], ?_, ?_, ?_, ?_⟩
    · rw [hm']
    · rw [hm']
    · have hq := queueOf_storeMessage_self st.mailbox m'
      rw [hm'] at hq ⊢
      exact hq
    · intro hnd
      rw [hm']
      exact dictGet_pop_none_of_nodup d ("sig") w d' hnd hpop

/-- C2 witness: the correctly signed fixture chat message is stored stripped
in `Alice`'s mailbox queue, and the same message with an invalid signature
fails with `SignatureInvalid` and no state change. -/
theorem c2_chat_verify_before_store_witness :
    process_message envW stW chatW =
      ([], .ok { stW with mailbox := storeMessage stW.mailbox ⟨.qcht, "Alice", chatDataW⟩ }) ∧
    process_message envW stW chatBadW = ([], .error .SignatureInvalid) :=
  ⟨((c2_chat_verify_before_store envW stW chatW rfl).2
      ⟨.qcht, "Alice", chatDataW⟩ (by decide)).1,
   (c2_chat_verify_before_store envW stW chatBadW rfl).1 .SignatureInvalid (by decide)⟩

/-- C3: `requestUserInfo` sends exactly one signed GET_USER_INFO for the user
(carrying its own connection info) to the configured root, then polls the
Directory once per time unit; it fails with `DirectoryTimeout` exactly when
the user is still absent at every poll through the first instant past the
2-unit bound (in particular not immediately and not indefinitely), and
returns normally exactly when the Directory reflects the answer at some poll
within that bound. -/
theorem c3_requestUserInfo_bound (st : ServerState) (user : String) (h : Nat → Bool)
    (rc : ConnInfo) (hroot : st.rootConfig = some rc) :
    requestUserInfo st user h =
      ([.sendMsg rc.host rc.port
          (_sign_message st.signerKey
            ⟨.getu, st.name,
             [(("user"), .vs user), (("connection"), .vc st.config)]⟩).encode_message],
       waitForUser h 0) ∧
    (waitForUser h 0 = .error .DirectoryTimeout ↔ ∀ t, t ≤ 3 → h t = false) ∧
    (waitForUser h 0 = .ok () ↔ ∃ t, t ≤ 3 ∧ h t = true) := by
  refine ⟨by simp [requestUserInfo, hroot], ?_, ?_⟩
  · rw [waitForUser_expand, forall_le_three_iff]
    by_cases h0 : h 0 = true <;> by_cases h1 : h 1 = true <;>
      by_cases h2 : h 2 = true <;> by_cases h3 : h 3 = true <;>
        simp_all
  · rw [waitForUser_expand]
    constructor
    · intro hok
      by_cases h0 : h 0 = true
      · exact ⟨0, by norm_num, h0⟩
      · by_cases h1 : h 1 = true
        · exact ⟨1, by norm_num, h1⟩
        · by_cases h2 : h 2 = true
          · exact ⟨2, by norm_num, h2⟩
          · by_cases h3 : h 3 = true
            · exact ⟨3, by norm_num, h3⟩
            · rw [if_neg h0, if_neg h1, if_neg h2, if_neg h3] at hok
              cases hok
    · rintro ⟨t, ht, htrue⟩
      interval_cases t <;> simp [htrue]

/-- C3 witness: in the fixture state, a lookup that the directory answers at
poll instant 2 returns normally, and one that is never answered times out;
both runs send the signed GET_USER_INFO to the configured root first. -/
theorem c3_requestUserInfo_bound_witness :
    (requestUserInfo stW ("Carol") (fun t => decide (2 ≤ t))).2 = .ok () ∧
    (requestUserInfo stW ("Carol") (fun _ => false)).2 = .error .DirectoryTimeout := by
  have h1 := c3_requestUserInfo_bound stW ("Carol") (fun t => decide (2 ≤ t))
    ⟨"roothost", 8000⟩ rfl
  have h2 := c3_requestUserInfo_bound stW ("Carol") (fun _ => false)
    ⟨"roothost", 8000⟩ rfl
  constructor
  · rw [h1.1]
    exact (h1.2.2).mpr ⟨2, by norm_num, by norm_num⟩
  · rw [h2.1]
    exact (h2.2.1).mpr (fun t ht => rfl)

/-- C1 counterexample: the claim that no unverified sender can mutate the
Directory fails on the PUT_USER_INFO branch.  `Mallory` is not in the
fixture directory (so no public key of hers is known and no verification can
have happened), yet her PUT_USER_INFO carrying an arbitrary `sig` value is
processed successfully and inserts a record for `Eve` into the Directory. -/
theorem c1_counterexample_unverified_putu :
    hasUser stW.userDB ("Mallory") = false ∧
    process_message envW stW
        ⟨.putu, "Mallory", [(("user"), .vs ("Eve")), (("pub"), .vs ("EK")), (("sig"), .vs ("junk"))]⟩ =
      ([], .ok { stW with userDB := stW.userDB ++ [("Eve", ⟨some ("EK"), none, none⟩)] }) ∧
    stW.userDB ++ [("Eve", ⟨some ("EK"), none, none⟩)] ≠ stW.userDB ∧
    hasUser (stW.userDB ++ [("Eve", ⟨some ("EK"), none, none⟩)]) ("Eve") = true := by
  decide

/-- C1 amended: verified-sender enforcement holds only on the CHAT and
generic-control paths — a CHAT message reaches the Mailbox, and a generic
control message its sender's control queue, only if signature verification
against the sender's known public key succeeded — while the PUT_USER_INFO
branch merges into the Directory after only stripping the signature (its
outcome is independent of the signature's value), and the PROTOCOL_CONTROL
branch for a previously-unknown sender runs the protocol and stores the
session key without verifying the message (its outcome is likewise
independent of the signature's value). -/
theorem c1_verified_sender_amended :
    (∀ env st m eff st', Message.header m = .qcht →
       process_message env st m = (eff, .ok st') →
       ∃ m', _verify_and_strip_message st.userDB m = .ok m' ∧
         st' = { st with mailbox := storeMessage st.mailbox m' } ∧ eff = []) ∧
    (∀ env st m tag eff st', Message.header m = .other tag →
       process_message env st m = (eff, .ok st') →
       ∃ m', _verify_and_strip_message st.userDB m = .ok m' ∧
         st' = { st with
                 control_message_queue := appendCtrl st.control_message_queue m'.sender m' } ∧
         eff = []) ∧
    (∀ env st s pre post v w, (∀ e ∈ pre, e.1 ≠ "sig") →
       process_message env st ⟨.putu, s, pre ++ (("sig"), v) :: post⟩ =
         process_message env st ⟨.putu, s, pre ++ (("sig"), w) :: post⟩) ∧
    (∀ env st s pre post v w, hasUser st.userDB s = false →
       (∀ e ∈ pre, e.1 ≠ "sig") →
       process_message env st ⟨.ptcl, s, pre ++ (("sig"), v) :: post⟩ =
         process_message env st ⟨.ptcl, s, pre ++ (("sig"), w) :: post⟩) := by
  refine ⟨?_, ?_, ?_, ?_⟩
  · intro env st m eff st' hhd hp
    obtain ⟨hd, sd, d⟩ := m
    cases hd <;> simp at hhd
    cases hv : _verify_and_strip_message st.userDB ⟨.qcht, sd, d⟩ with
    | error e => simp [process_message, hv] at hp
    | ok m' =>
        simp [process_message, hv] at hp
        exact ⟨m', rfl, hp.2.symm, hp.1⟩
  · intro env st m tag eff st' hhd hp
    obtain ⟨hd, sd, d⟩ := m
    cases hd <;> simp at hhd
    rename_i tag2
    cases hv : _verify_and_strip_message st.userDB ⟨.other tag2, sd, d⟩ with
    | error e => simp [process_message, hv] at hp
    | ok m' =>
        simp [process_message, hv] at hp
        exact ⟨m', rfl, hp.2.symm, hp.1⟩
  · intro env st s pre post v w hpre
    have hpop1 := dictPop_middle pre post ("sig") v hpre
    have hpop2 := dictPop_middle pre post ("sig") w hpre
    simp [process_message, _strip_signature, hpop1, hpop2]
  · intro env st s pre post v w huser hpre
    have hname := dictGet_middle_ne pre post ("name") ("sig") v w (by decide)
    have hn := dictGet_middle_ne pre post ("n") ("sig") v w (by decide)
    cases hr : requestUserInfo st s (arrivalFn env) with
    | mk effs r =>
        cases r with
        | error e => simp [process_message, huser, hr]
        | ok u =>
            cases ha : env.arrival with
            | none => simp [process_message, huser, hr, ha]
            | some p =>
                obtain ⟨t0, rec⟩ := p
                simp only [process_message, huser, hr, ha, Bool.false_eq_true, if_false]
                exact congrArg (fun r => (effs, r))
                  (follow_protocol_congr env _ .ptcl s _ _ hname hn)

/-- C1 amended witness: each branch of the amended invariant evaluated at a
concrete input — the verified fixture chat message and a verified generic
control message do land in mailbox and control queue, and concrete
PUT_USER_INFO / unknown-sender PROTOCOL_CONTROL messages differing only in
their signature value process identically. -/
theorem c1_verified_sender_amended_witness :
    (∃ m', _verify_and_strip_message stW.userDB chatW = .ok m' ∧
       ({ stW with mailbox := storeMessage stW.mailbox ⟨.qcht, "Alice", chatDataW⟩ } : ServerState) =
         { stW with mailbox := storeMessage stW.mailbox m' } ∧ ([] : List Effect) = []) ∧
    (∃ m', _verify_and_strip_message stW.userDB
        (_sign_message ("APUB") ⟨.other ("GEN"), "Alice", [(("r"), .vs ("1"))]⟩) = .ok m' ∧
       ({ stW with control_message_queue :=
            appendCtrl stW.control_message_queue ("Alice") ⟨.other ("GEN"), "Alice", [(("r"), .vs ("1"))]⟩ } : ServerState) =
         { stW with control_message_queue := appendCtrl stW.control_message_queue m'.sender m' } ∧
       ([] : List Effect) = []) ∧
    process_message envW stW
        ⟨.putu, "Mallory", [(("user"), .vs ("Eve")), (("sig"), .vs ("junk")), (("pub"), .vs ("EK"))]⟩ =
      process_message envW stW
        ⟨.putu, "Mallory", [(("user"), .vs ("Eve")), (("sig"), .vs ("other")), (("pub"), .vs ("EK"))]⟩ ∧
    process_message envW stW
        ⟨.ptcl, "Mallory", [(("name"), .vs ("BB84_Purified")), (("sig"), .vs ("junk")), (("n"), .vn 100)]⟩ =
      process_message envW stW
        ⟨.ptcl, "Mallory", [(("name"), .vs ("BB84_Purified")), (("sig"), .vs ("other")), (("n"), .vn 100)]⟩ :=
  ⟨c1_verified_sender_amended.1 envW stW chatW []
      { stW with mailbox := storeMessage stW.mailbox ⟨.qcht, "Alice", chatDataW⟩ }
      rfl (by decide),
   c1_verified_sender_amended.2.1 envW stW
      (_sign_message ("APUB") ⟨.other ("GEN"), "Alice", [(("r"), .vs ("1"))]⟩) ("GEN") []
      { stW with control_message_queue :=
          appendCtrl stW.control_message_queue ("Alice") ⟨.other ("GEN"), "Alice", [(("r"), .vs ("1"))]⟩ }
      rfl (by decide),
   c1_verified_sender_amended.2.2.1 envW stW ("Mallory")
      [(("user"), .vs ("Eve"))] [(("pub"), .vs ("EK"))] (.vs ("junk")) (.vs ("other")) (by decide),
   c1_verified_sender_amended.2.2.2 envW stW ("Mallory")
      [(("name"), .vs ("BB84_Purified"))] [(("n"), .vn 100)] (.vs ("junk")) (.vs ("other"))
      (by decide) (by decide)⟩

/-- C4: `get_message_history(peer, count)` dequeues exactly `count` messages
from the peer's mailbox queue in FIFO arrival order (the queue afterwards is
the original minus its first `count` entries, all other queues untouched),
decrypts each with the peer's stored session key, and returns the plaintexts
in the same order; and if some dequeued message's declared sender differs
from the peer — all earlier ones matching and decrypting — the call fails
with the `MailboxConsistency` error without requiring that message to be
decryptable. -/
theorem c4_get_message_history_fifo :
    (∀ (db : UserDB) (user k : String) (count : Nat) (mb : Mailbox)
       (q : List Message) (ps : List String),
       queueOf mb user = q → count ≤ q.length →
       (∀ m ∈ q.take count, m.sender = user) →
       getMessageKey db user = .ok (some k) →
       decryptAll k (q.take count) = .ok ps →
       ∃ mb', get_message_history db mb user count = .ok (ps, mb') ∧
         queueOf mb' user = q.drop count ∧
         ∀ v, v ≠ user → queueOf mb' v = queueOf mb v) ∧
    (∀ (db : UserDB) (user k : String) (i count : Nat) (mb : Mailbox)
       (q : List Message) (ps : List String) (bad : Message),
       queueOf mb user = q → i < count → q.get? i = some bad → bad.sender ≠ user →
       (∀ m ∈ q.take i, m.sender = user) →
       getMessageKey db user = .ok (some k) →
       decryptAll k (q.take i) = .ok ps →
       get_message_history db mb user count = .error .MailboxConsistency) :=
  ⟨fun db user k count mb q ps => gmh_ok_aux db user k count mb q ps,
   fun db user k i count mb q ps bad => gmh_mismatch_aux db user k i count mb q ps bad⟩

/-- C4 witness: from the fixture mailbox, retrieving two of `Alice`'s three
queued messages yields their plaintexts in arrival order and leaves the third
queued; retrieving from the queue whose second entry declares sender `Carol`
fails with `MailboxConsistency`. -/
theorem c4_get_message_history_fifo_witness :
    (∃ mb', get_message_history stW.userDB mbW ("Alice") 2 = .ok (["m1", "m2"], mb') ∧
       queueOf mb' ("Alice") = [mkChatW ("m3")] ∧
       ∀ v, v ≠ "Alice" → queueOf mb' v = queueOf mbW v) ∧
    get_message_history stW.userDB mbBadW ("Alice") 3 = .error .MailboxConsistency := by
  constructor
  · have h := c4_get_message_history_fifo.1 stW.userDB ("Alice") ("SKEY") 2 mbW
      [mkChatW ("m1"), mkChatW ("m2"), mkChatW ("m3")] ["m1", "m2"]
      (by decide) (by decide) (by decide) (by decide) (by decide)
    simpa using h
  · exact c4_get_message_history_fifo.2 stW.userDB ("Alice") ("SKEY") 1 3 mbBadW
      [mkChatW ("m1"), ⟨.qcht, "Carol", []⟩, mkChatW ("m3")] ["m1"] ⟨.qcht, "Carol", []⟩
      (by decide) (by decide) (by decide) (by decide) (by decide) (by decide) (by decide)

/-- C9: at startup, a node whose configured host and port both equal the
root's sends nothing; every other node sends exactly its own REGISTER payload
(name, public key, connection info) to the root; and whatever happens —
missing root configuration, unknown own record, or a network failure — the
registration step always returns normally, so construction completes. -/
theorem c9_registerWithRoot (st : ServerState) (sendFails : Bool) (rc : ConnInfo)
    (pk : String) :
    (st.rootConfig = some rc → st.config.host = rc.host → st.config.port = rc.port →
       registerWithRootServer st sendFails = ([], .ok ())) ∧
    (st.rootConfig = some rc → ¬(st.config.host = rc.host ∧ st.config.port = rc.port) →
       sendFails = false → getPublicKey st.userDB st.name = .ok pk →
       registerWithRootServer st sendFails =
         ([.sendMsg rc.host rc.port
             (Message.encode_message ⟨.rgst, st.name,
               [(("user"), .vs st.name), (("pub"), .vs pk), (("connection"), .vc st.config)]⟩)],
          .ok ())) ∧
    (registerWithRootServer st sendFails).2 = .ok () := by
  refine ⟨?_, ?_, ?_⟩
  · intro h1 h2 h3
    simp [registerWithRootServer, h1, h2, h3]
  · intro h1 h2 h3 h4
    subst h3
    simp [registerWithRootServer, sendRegistration, h1, h2, h4]
  · cases hrc : st.rootConfig with
    | none => simp [registerWithRootServer, hrc]
    | some rc' =>
        by_cases hroot : st.config.host = rc'.host ∧ st.config.port = rc'.port
        · simp [registerWithRootServer, hrc, hroot]
        · cases hs : sendRegistration st sendFails rc'.host rc'.port <;>
            simp [registerWithRootServer, hrc, hroot, hs]

/-- C9 witness: the fixture node (whose address differs from the root's)
sends exactly its REGISTER payload; the same node configured at the root's
own address sends nothing; and with a failing network send the step still
returns normally. -/
theorem c9_registerWithRoot_witness :
    registerWithRootServer stW false =
      ([.sendMsg ("roothost") 8000
          (Message.encode_message ⟨.rgst, "Bob",
            [(("user"), .vs ("Bob")), (("pub"), .vs ("BPUB")), (("connection"), .vc ⟨"bobhost", 8001⟩)]⟩)],
       .ok ()) ∧
    registerWithRootServer { stW with config := ⟨"roothost", 8000⟩ } false = ([], .ok ()) ∧
    (registerWithRootServer stW true).2 = .ok () :=
  ⟨(c9_registerWithRoot stW false ⟨"roothost", 8000⟩ ("BPUB")).2.1
      rfl (by decide) rfl (by decide),
   (c9_registerWithRoot { stW with config := ⟨"roothost", 8000⟩ } false
      ⟨"roothost", 8000⟩ ("BPUB")).1 rfl rfl rfl,
   (c9_registerWithRoot stW true ⟨"roothost", 8000⟩ ("BPUB")).2.2⟩

end QChat
